import Mathlib

/-
Verification of changkun/todo (todo.go): a single-shot CLI that collects a
multi-line TODO from stdin, optionally enriches it via a completion service,
and emails it via mailgun with an unbounded fixed-backoff retry loop.

The embedding below translates the functions of todo.go into Lean:
interactive stdin and the signal channel become a list of input events,
the completion client and its stream become an environment value, and the
mailgun send results become a list of booleans (one per attempt).
-/

namespace Todo

/-- Configuration fields of the `config` struct (todo.go lines 25-32),
loaded from the embedded conf.yml. Its concrete values are opaque to main,
so it is a parameter of the model. -/
structure Config where
  person : String
  email : String
  domain : String
  apikey : String
  apibase : String
  inbox : String
deriving DecidableEq

/-- Models the tail of `init` (todo.go lines 57-62): the openai client is
configured iff $OPENAI_API_KEY is non-empty (os.Getenv yields "" when the
variable is unset). -/
def clientConfigured (openaiKey : String) : Bool :=
  !(openaiKey == "")

/-- One event observed by the collection loop `waitBody` (todo.go lines
180-215): a full line scanned from stdin, end-of-input (Scan returns
false, the reader forwards os.Interrupt on sigCh), or an interrupt signal
delivered on sigCh. -/
inductive InEv where
  | line (s : String)
  | eof
  | interrupt
deriving DecidableEq

/-- Models the `waitBody` loop of todo.go lines 180-215 over a sequence of
input events. `acc` is the accumulated `a.text`. An interrupt or EOF makes
the select take the sigCh branch and return false; an empty line makes the
controller return true; a non-empty line is appended and the loop
continues. `none` models input exhausted with no terminator (the process
would block forever). -/
def collect (acc : List String) : List InEv → Option (List String × Bool)
  | [] => none
  | InEv.interrupt :: _ => some (acc, false)
  | InEv.eof :: _ => some (acc, false)
  | InEv.line l :: rest =>
    if l = "" then some (acc, true) else collect (acc ++ [l]) rest

/-- Models todo.go lines 97-100: `text := a.subject; if len(a.text) != 0
then text = strings.Join(a.text, "\n")`. -/
def composeText (subject : String) (lines : List String) : String :=
  if lines.isEmpty then subject else String.intercalate "\n" lines

/-- Outcome of the enrichment block (todo.go lines 102-138) as observed by
the rest of main: no configured client; the CreateChatCompletionStream
call itself errors; the stream yields the given delta chunks then io.EOF;
or the stream yields the given chunks and then Recv errors. -/
inductive EnrichEnv where
  | noClient
  | requestError
  | streamOk (chunks : List String)
  | streamErrAfter (chunks : List String)
deriving DecidableEq

/-- Whether the enrichment block runs at all (`if client != nil`,
todo.go line 102). -/
def EnrichEnv.isConfigured : EnrichEnv → Bool
  | EnrichEnv.noClient => false
  | _ => true

/-- The text that reaches the send loop, per todo.go lines 102-138. With
no client the block is skipped. If CreateChatCompletionStream errors the
text is left unchanged (line 118). Otherwise the receive loop accumulates
`suggestion` from the delta chunks and, whether it stopped at io.EOF or at
a Recv error (line 129 breaks out of the loop, not past line 136), line
136 appends the suggestion section. -/
def applyEnrich (text : String) : EnrichEnv → String
  | EnrichEnv.noClient => text
  | EnrichEnv.requestError => text
  | EnrichEnv.streamOk chunks =>
    text ++ "\n\nSuggestion by GPT4:\n" ++ String.join chunks ++ "\n"
  | EnrichEnv.streamErrAfter chunks =>
    text ++ "\n\nSuggestion by GPT4:\n" ++ String.join chunks ++ "\n"

/-- Number of sendEmail attempts made by the retry loop (todo.go lines
140-148) given the per-attempt results (true = mg.Send returned nil).
`none` models the loop running forever because no listed attempt
succeeds. -/
def retryAttempts : List Bool → Option Nat
  | [] => none
  | true :: _ => some 1
  | false :: rest => (retryAttempts rest).map (· + 1)

/-- Events of the retry loop of todo.go lines 140-149: a call to
sendEmail, the `time.Sleep(3 * time.Second)` after a failure, and the
final success print. -/
inductive SendEv where
  | attempt
  | sleep (secs : Nat)
  | success
deriving DecidableEq

/-- Event trace of the retry loop (todo.go lines 140-149): each failed
attempt is followed by a 3-second sleep; the first successful attempt
breaks the loop and the success message is printed. -/
def retryTrace : List Bool → Option (List SendEv)
  | [] => none
  | true :: _ => some [SendEv.attempt, SendEv.success]
  | false :: rest =>
    (retryTrace rest).map (fun t => SendEv.attempt :: SendEv.sleep 3 :: t)

/-- Arguments of one mg.NewMessage / mg.Send call (todo.go lines 152-157):
sender address conf.Email, the subject, the body text, and the recipient
inbox. -/
structure SendReq where
  sender : String
  subject : String
  body : String
  recipient : String
deriving DecidableEq

/-- How a run of main terminates: os.Exit(1) via fatal, the cancellation
return (todo.go lines 90-93), or the normal path ending in SENT. -/
inductive Outcome where
  | fatalExit
  | canceled
  | sent
deriving DecidableEq

/-- Observable result of one run of main: the outcome, the process exit
code, whether the collection prompt was printed (waitBody line 182),
whether the enrichment block ran, the argument tuples of every
sendEmail attempt in order, the number of attempts, and the final
user-facing message. -/
structure RunResult where
  outcome : Outcome
  exitCode : Nat
  prompted : Bool
  enrichCalled : Bool
  emails : List SendReq
  attempts : Nat
  finalMsg : String
deriving DecidableEq

/-- Models `main` (todo.go lines 65-150), after flag parsing, as a
function of the parsed non-flag arguments, the stdin/signal events, the
enrichment environment and the per-attempt email results. Empty joined
subject hits `fatal` (lines 82-84) before the prompt and before any
network call. A cancelled collection prints the cancellation notice and
returns (lines 90-93). Otherwise the item subject is "todo: " ++ subject
(line 88), the body text is composed (lines 97-100), optionally enriched
(lines 102-138), and sent with retries (lines 140-149); every attempt
passes the same a.subject, text and conf.Inbox to sendEmail. -/
def runMain (conf : Config) (args : List String) (input : List InEv)
    (env : EnrichEnv) (emailResults : List Bool) : Option RunResult :=
  if String.intercalate " " args = "" then
    some ⟨Outcome.fatalExit, 1, false, false, [], 0,
      "todo: missing todo subject."⟩
  else
    match collect [] input with
    | none => none
    | some (_, false) =>
      some ⟨Outcome.canceled, 0, true, false, [], 0,
        "todo: TODO is canceled."⟩
    | some (bodyLines, true) =>
      match retryAttempts emailResults with
      | none => none
      | some n =>
        some ⟨Outcome.sent, 0, true, env.isConfigured,
          List.replicate n
            ⟨conf.email, "todo: " ++ String.intercalate " " args,
              applyEnrich
                (composeText ("todo: " ++ String.intercalate " " args)
                  bodyLines) env,
              conf.inbox⟩,
          n, "\n todo: SENT!"⟩

/-- A concrete configuration value used to instantiate witnesses; main
never branches on its fields. -/
def sampleConf : Config :=
  ⟨"Changkun", "sender@example.org", "example.org", "secret",
    "https://api.mailgun.net/v3", "inbox@example.org"⟩

/-- State of the line handoff inside `waitBody` (todo.go lines 184-214).
Lines scanned from stdin are numbered 0, 1, 2, ... in arrival order.
`readerPos` is the index the reader goroutine will scan next, `holding`
is a line the reader has scanned but not yet sent, `buf` is the content
of the channel `line := make(chan string, 1)` (capacity one), and
`consumed` lists the lines the controller has received, in order. -/
structure ChanState where
  readerPos : Nat
  holding : Option Nat
  buf : Option Nat
  consumed : List Nat
deriving DecidableEq

/-- Interleaving steps of the reader goroutine and the controller in
`waitBody` (todo.go lines 188-213): the reader completes `s.Scan()` for
the next line (possible only when it is not still holding an unsent
line), the reader performs `line <- l` (possible only when the
capacity-one buffer is free), and the controller receives on `line`. -/
inductive ChanStep : ChanState → ChanState → Prop where
  | read (p : Nat) (b : Option Nat) (c : List Nat) :
      ChanStep ⟨p, none, b, c⟩ ⟨p + 1, some p, b, c⟩
  | send (p k : Nat) (c : List Nat) :
      ChanStep ⟨p, some k, none, c⟩ ⟨p, none, some k, c⟩
  | recv (p : Nat) (hl : Option Nat) (k : Nat) (c : List Nat) :
      ChanStep ⟨p, hl, some k, c⟩ ⟨p, hl, none, c ++ [k]⟩

/-- Initial handoff state: nothing read, held, buffered or consumed. -/
def initialChan : ChanState := ⟨0, none, none, []⟩

/-- States reachable by interleaving reader and controller steps. -/
inductive ChanReachable : ChanState → Prop where
  | init : ChanReachable initialChan
  | step {s t : ChanState} : ChanReachable s → ChanStep s t → ChanReachable t

/-- A handoff state in which the reader has completed its second read
(readerPos = 2) while line 0 is still buffered and unconsumed. -/
def cexChan : ChanState := ⟨2, some 1, some 0, []⟩

/-- A handoff state in which one line has been read and is held by the
reader, with nothing buffered or consumed yet; used to instantiate the
ordering invariant. -/
def w10state : ChanState := ⟨1, some 0, none, []⟩

/-- The send request of the C1 witness run. -/
def w1req : SendReq :=
  ⟨sampleConf.email, "todo: buy milk", "todo: buy milk", sampleConf.inbox⟩

/-- The run result of the C1 witness run. -/
def w1res : RunResult :=
  ⟨Outcome.sent, 0, true, false, [w1req], 1, "\n todo: SENT!"⟩

/-- The send request of the C8 witness run. -/
def w8req : SendReq :=
  ⟨sampleConf.email, "todo: garden", "water plants", sampleConf.inbox⟩

/-- The run result of the C8 witness run. -/
def w8res : RunResult :=
  ⟨Outcome.sent, 0, true, false, [w8req], 1, "\n todo: SENT!"⟩

/-- The send request of the C9 witness run. -/
def w9req : SendReq :=
  ⟨sampleConf.email, "todo: ping", "todo: ping", sampleConf.inbox⟩

/-- The run result of the C9 witness run. -/
def w9res : RunResult :=
  ⟨Outcome.sent, 0, true, false, [w9req, w9req], 2, "\n todo: SENT!"⟩

/-- Helper: a session of non-empty lines terminated by a blank line
completes, appending the lines in order. -/
theorem collect_lines_blank (acc ls : List String)
    (h : ∀ l ∈ ls, l ≠ "") :
    collect acc (ls.map InEv.line ++ [InEv.line ""]) = some (acc ++ ls, true) := by
  induction ls generalizing acc with
  | nil => simp [collect]
  | cons x xs ih =>
    have hx : x ≠ "" := h x (by simp)
    have hxs : ∀ l ∈ xs, l ≠ "" := fun l hl => h l (by simp [hl])
    simp only [List.map_cons, List.cons_append, collect, if_neg hx,
      List.append_eq]
    rw [ih (acc ++ [x]) hxs]
    simp

/-- Helper: an interrupt or EOF after any run of non-empty lines cancels
the collection. -/
theorem collect_cancel (acc ls : List String) (ev : InEv) (rest : List InEv)
    (hev : ev = InEv.interrupt ∨ ev = InEv.eof)
    (h : ∀ l ∈ ls, l ≠ "") :
    collect acc (ls.map InEv.line ++ ev :: rest) = some (acc ++ ls, false) := by
  induction ls generalizing acc with
  | nil => rcases hev with rfl | rfl <;> simp [collect]
  | cons x xs ih =>
    have hx : x ≠ "" := h x (by simp)
    have hxs : ∀ l ∈ xs, l ≠ "" := fun l hl => h l (by simp [hl])
    simp only [List.map_cons, List.cons_append, collect, if_neg hx,
      List.append_eq]
    rw [ih (acc ++ [x]) hxs]
    simp

/-- Helper: the fatal branch of runMain. -/
theorem runMain_fatal (conf : Config) (args : List String) (input : List InEv)
    (env : EnrichEnv) (res : List Bool)
    (hs : String.intercalate " " args = "") :
    runMain conf args input env res =
      some ⟨Outcome.fatalExit, 1, false, false, [], 0,
        "todo: missing todo subject."⟩ := by
  rw [runMain, if_pos hs]

/-- Helper: the cancellation branch of runMain. -/
theorem runMain_canceled (conf : Config) (args : List String)
    (input : List InEv) (env : EnrichEnv) (res : List Bool) (acc : List String)
    (hs : String.intercalate " " args ≠ "")
    (hcol : collect [] input = some (acc, false)) :
    runMain conf args input env res =
      some ⟨Outcome.canceled, 0, true, false, [], 0,
        "todo: TODO is canceled."⟩ := by
  rw [runMain, if_neg hs, hcol]

/-- Helper: the successful-send branch of runMain. -/
theorem runMain_sent (conf : Config) (args : List String) (input : List InEv)
    (env : EnrichEnv) (res : List Bool) (bl : List String) (n : Nat)
    (hs : String.intercalate " " args ≠ "")
    (hcol : collect [] input = some (bl, true))
    (hret : retryAttempts res = some n) :
    runMain conf args input env res =
      some ⟨Outcome.sent, 0, true, env.isConfigured,
        List.replicate n
          ⟨conf.email, "todo: " ++ String.intercalate " " args,
            applyEnrich
              (composeText ("todo: " ++ String.intercalate " " args) bl) env,
            conf.inbox⟩,
        n, "\n todo: SENT!"⟩ := by
  rw [runMain, if_neg hs, hcol, hret]

/-- Helper: every send attempt of a completed run passes exactly the
arguments built from conf, the item subject and the (possibly enriched)
composed text. -/
theorem mem_emails_spec (conf : Config) (args : List String)
    (input : List InEv) (env : EnrichEnv) (res : List Bool)
    (r : RunResult) (m : SendReq)
    (hrun : runMain conf args input env res = some r)
    (hm : m ∈ r.emails) :
    ∃ bl, collect [] input = some (bl, true) ∧
      m = ⟨conf.email, "todo: " ++ String.intercalate " " args,
        applyEnrich
          (composeText ("todo: " ++ String.intercalate " " args) bl) env,
        conf.inbox⟩ := by
  by_cases hs : String.intercalate " " args = ""
  · rw [runMain_fatal conf args input env res hs] at hrun
    cases hrun
    simp at hm
  · rcases hcol : collect [] input with _ | ⟨bl, b⟩
    · rw [runMain, if_neg hs, hcol] at hrun
      exact Option.noConfusion hrun
    · cases b with
      | false =>
        rw [runMain_canceled conf args input env res bl hs hcol] at hrun
        cases hrun
        simp at hm
      | true =>
        rcases hret : retryAttempts res with _ | n
        · rw [runMain, if_neg hs, hcol, hret] at hrun
          exact Option.noConfusion hrun
        · rw [runMain_sent conf args input env res bl n hs hcol hret] at hrun
          cases hrun
          exact ⟨bl, rfl, List.eq_of_mem_replicate hm⟩

/-- Helper: the outcome, exit code and attempt count of a run do not
depend on the enrichment environment. -/
theorem runMain_ctrl_indep (conf : Config) (args : List String)
    (input : List InEv) (env env' : EnrichEnv) (res : List Bool) :
    (runMain conf args input env res).map
        (fun r => (r.outcome, r.exitCode, r.attempts)) =
      (runMain conf args input env' res).map
        (fun r => (r.outcome, r.exitCode, r.attempts)) := by
  by_cases hs : String.intercalate " " args = ""
  · rw [runMain_fatal conf args input env res hs,
      runMain_fatal conf args input env' res hs]
  · rcases hcol : collect [] input with _ | ⟨bl, b⟩
    · simp only [runMain, if_neg hs, hcol]
    · cases b with
      | false =>
        rw [runMain_canceled conf args input env res bl hs hcol,
          runMain_canceled conf args input env' res bl hs hcol]
      | true =>
        rcases hret : retryAttempts res with _ | n
        · simp only [runMain, if_neg hs, hcol, hret]
        · rw [runMain_sent conf args input env res bl n hs hcol hret,
            runMain_sent conf args input env' res bl n hs hcol hret]
          rfl

/-- Helper: the sender, subject and recipient of every attempt do not
depend on the enrichment environment. -/
theorem runMain_meta_indep (conf : Config) (args : List String)
    (input : List InEv) (env env' : EnrichEnv) (res : List Bool) :
    (runMain conf args input env res).map
        (fun x => x.emails.map (fun q => (q.sender, q.subject, q.recipient))) =
      (runMain conf args input env' res).map
        (fun x => x.emails.map (fun q => (q.sender, q.subject, q.recipient))) := by
  by_cases hs : String.intercalate " " args = ""
  · rw [runMain_fatal conf args input env res hs,
      runMain_fatal conf args input env' res hs]
  · rcases hcol : collect [] input with _ | ⟨bl, b⟩
    · simp only [runMain, if_neg hs, hcol]
    · cases b with
      | false =>
        rw [runMain_canceled conf args input env res bl hs hcol,
          runMain_canceled conf args input env' res bl hs hcol]
      | true =>
        rcases hret : retryAttempts res with _ | n
        · simp only [runMain, if_neg hs, hcol, hret]
        · rw [runMain_sent conf args input env res bl n hs hcol hret,
            runMain_sent conf args input env' res bl n hs hcol hret]
          simp [List.map_replicate]

/-- C1: for every non-empty argument list, any email delivery attempt of
the run uses as subject the arguments joined by single spaces with the
fixed literal tag "todo: " in front. -/
theorem C1_delivered_subject (conf : Config) (args : List String)
    (input : List InEv) (env : EnrichEnv) (res : List Bool)
    (r : RunResult) (m : SendReq)
    (hargs : args ≠ [])
    (hrun : runMain conf args input env res = some r)
    (hm : m ∈ r.emails) :
    m.subject = "todo: " ++ String.intercalate " " args := by
  obtain ⟨bl, -, rfl⟩ := mem_emails_spec conf args input env res r m hrun hm
  rfl

/-- Witness for C1 at args = ["buy", "milk"], a blank first line, no
completion client and a first-attempt success. -/
theorem C1_delivered_subject_witness :
    (["buy", "milk"] : List String) ≠ [] ∧
    runMain sampleConf ["buy", "milk"] [InEv.line ""] EnrichEnv.noClient
      [true] = some w1res ∧
    w1req ∈ w1res.emails ∧
    w1req.subject = "todo: " ++ String.intercalate " " ["buy", "milk"] :=
  ⟨by decide, by decide, by decide,
    C1_delivered_subject sampleConf ["buy", "milk"] [InEv.line ""]
      EnrichEnv.noClient [true] w1res w1req (by decide) (by decide)
      (by decide)⟩

/-- C2 counterexample: in the scenario with arguments ["call", "mom"],
the typed line "this evening" then a blank line, no completion client and
two failures before a success, every attempt sends the body
"this evening" — not "call mom\nthis evening" as the claim states,
because main replaces the text with the joined body lines (todo.go lines
97-100) instead of appending them to the subject text. -/
theorem C2_body_counterexample :
    (runMain sampleConf ["call", "mom"]
        [InEv.line "this evening", InEv.line ""] EnrichEnv.noClient
        [false, false, true]).map (fun r => r.emails.map SendReq.body) =
      some ["this evening", "this evening", "this evening"] ∧
    ("this evening" : String) ≠ "call mom\nthis evening" := by
  exact ⟨by decide, by decide⟩

/-- C2 (amended): in the scenario with arguments ["call", "mom"], the
typed line "this evening" then a blank line, no completion credential and
an email service failing twice then succeeding, the sent body is
"this evening" (the typed body lines joined by newlines, without the
subject text), exactly 3 delivery attempts are made, and the exit code
is 0. -/
theorem C2_scenario (conf : Config) :
    runMain conf ["call", "mom"] [InEv.line "this evening", InEv.line ""]
      EnrichEnv.noClient [false, false, true] =
    some ⟨Outcome.sent, 0, true, false,
      List.replicate 3 ⟨conf.email, "todo: call mom", "this evening",
        conf.inbox⟩,
      3, "\n todo: SENT!"⟩ := by
  rfl

/-- Witness for C2 at the sample configuration. -/
theorem C2_scenario_witness :
    runMain sampleConf ["call", "mom"]
      [InEv.line "this evening", InEv.line ""] EnrichEnv.noClient
      [false, false, true] =
    some ⟨Outcome.sent, 0, true, false,
      List.replicate 3 ⟨sampleConf.email, "todo: call mom", "this evening",
        sampleConf.inbox⟩,
      3, "\n todo: SENT!"⟩ :=
  C2_scenario sampleConf

/-- C3 counterexample: when the completion stream opens but a receive
error occurs (here after the chunk "Partial"), the delivered text is the
original text with the suggestion section appended — not the original
unaugmented text as the claim states, because the append at todo.go line
136 runs even after the receive loop breaks on an error at line 129. -/
theorem C3_stream_error_counterexample :
    applyEnrich "todo: x" (EnrichEnv.streamErrAfter ["Partial"]) ≠
      "todo: x" ∧
    (runMain sampleConf ["x"] [InEv.line ""]
        (EnrichEnv.streamErrAfter ["Partial"]) [true]).map
        (fun r => r.emails.map SendReq.body) =
      some ["todo: x\n\nSuggestion by GPT4:\nPartial\n"] := by
  exact ⟨by decide, by decide⟩

/-- C3 (amended): if the enrichment request itself fails the delivered
text equals the original unaugmented text, but if a stream-receive error
occurs after the stream opens the suggestion section holding the partial
content is still appended; in every case the run continues to delivery
and the outcome, exit code and attempt count are the same as if no
client were configured. -/
theorem C3_enrich_failure (conf : Config) (args : List String)
    (input : List InEv) (env : EnrichEnv) (res : List Bool) :
    (∀ t, applyEnrich t EnrichEnv.requestError = t) ∧
    (∀ t chunks, applyEnrich t (EnrichEnv.streamErrAfter chunks) =
      t ++ "\n\nSuggestion by GPT4:\n" ++ String.join chunks ++ "\n") ∧
    (runMain conf args input env res).map
        (fun r => (r.outcome, r.exitCode, r.attempts)) =
      (runMain conf args input EnrichEnv.noClient res).map
        (fun r => (r.outcome, r.exitCode, r.attempts)) :=
  ⟨fun _ => rfl, fun _ _ => rfl,
    runMain_ctrl_indep conf args input env EnrichEnv.noClient res⟩

/-- Witness for C3 at a concrete failing-enrichment run. -/
theorem C3_enrich_failure_witness :
    applyEnrich "todo: x" EnrichEnv.requestError = "todo: x" ∧
    (runMain sampleConf ["x"] [InEv.line ""] EnrichEnv.requestError
        [true]).map (fun r => (r.outcome, r.exitCode, r.attempts)) =
      (runMain sampleConf ["x"] [InEv.line ""] EnrichEnv.noClient
        [true]).map (fun r => (r.outcome, r.exitCode, r.attempts)) :=
  ⟨(C3_enrich_failure sampleConf ["x"] [InEv.line ""]
      EnrichEnv.requestError [true]).1 "todo: x",
    (C3_enrich_failure sampleConf ["x"] [InEv.line ""]
      EnrichEnv.requestError [true]).2.2⟩

/-- C4: when the email send fails N times then succeeds, the retry loop
makes exactly N+1 attempts, its event trace interleaves a fixed 3-second
sleep between consecutive attempts and ends with the success report
directly after the (N+1)-th attempt, and with no successful attempt the
loop never reaches the success state. -/
theorem C4_retry (N : Nat) :
    retryAttempts (List.replicate N false ++ [true]) = some (N + 1) ∧
    retryTrace (List.replicate N false ++ [true]) =
      some ((List.replicate N [SendEv.attempt, SendEv.sleep 3]).flatten ++
        [SendEv.attempt, SendEv.success]) ∧
    ∀ k, retryTrace (List.replicate k false) = none := by
  refine ⟨?_, ?_, ?_⟩
  · induction N with
    | zero => rfl
    | succ n ih => simp [List.replicate_succ, retryAttempts, ih]
  · induction N with
    | zero => rfl
    | succ n ih => simp [List.replicate_succ, retryTrace, ih]
  · intro k
    induction k with
    | zero => rfl
    | succ n ih => simp [List.replicate_succ, retryTrace, ih]

/-- Witness for C4 at N = 2. -/
theorem C4_retry_witness :
    retryAttempts (List.replicate 2 false ++ [true]) = some 3 :=
  (C4_retry 2).1

/-- C5: a collection session of N non-empty lines followed by a blank
line completes (not cancelled) with exactly those N lines, in input
order; at N = 0 a blank first line yields a zero-line completed
collection. -/
theorem C5_collect_session (ls : List String) (h : ∀ l ∈ ls, l ≠ "") :
    collect [] (ls.map InEv.line ++ [InEv.line ""]) = some (ls, true) := by
  simpa using collect_lines_blank [] ls h

/-- Witness for C5 at the two-line session "call mom", "at noon". -/
theorem C5_collect_session_witness :
    (∀ l ∈ (["call mom", "at noon"] : List String), l ≠ "") ∧
    collect [] [InEv.line "call mom", InEv.line "at noon", InEv.line ""] =
      some (["call mom", "at noon"], true) :=
  ⟨by decide, C5_collect_session ["call mom", "at noon"] (by decide)⟩

/-- C6: an interrupt or end-of-input after any number of non-empty lines
cancels the run: no email attempt is made, the collected data is
discarded, the distinct cancellation notice is the final message, and the
exit code is 0. -/
theorem C6_cancel_run (conf : Config) (args ls : List String) (ev : InEv)
    (rest : List InEv) (env : EnrichEnv) (res : List Bool)
    (hargs : String.intercalate " " args ≠ "")
    (hev : ev = InEv.interrupt ∨ ev = InEv.eof)
    (hls : ∀ l ∈ ls, l ≠ "") :
    runMain conf args (ls.map InEv.line ++ ev :: rest) env res =
      some ⟨Outcome.canceled, 0, true, false, [], 0,
        "todo: TODO is canceled."⟩ ∧
    ("todo: TODO is canceled." : String) ≠ "\n todo: SENT!" ∧
    ("todo: TODO is canceled." : String) ≠ "todo: missing todo subject." := by
  have hc := collect_cancel [] ls ev rest hev hls
  simp only [List.nil_append] at hc
  exact ⟨runMain_canceled conf args _ env res ls hargs hc, by decide,
    by decide⟩

/-- Witness for C6: interrupt after one line "tomorrow" in a run with
arguments ["pay", "rent"]. -/
theorem C6_cancel_run_witness :
    String.intercalate " " ["pay", "rent"] ≠ "" ∧
    runMain sampleConf ["pay", "rent"] [InEv.line "tomorrow", InEv.interrupt]
      EnrichEnv.noClient [true] =
      some ⟨Outcome.canceled, 0, true, false, [], 0,
        "todo: TODO is canceled."⟩ :=
  ⟨by decide,
    (C6_cancel_run sampleConf ["pay", "rent"] ["tomorrow"] InEv.interrupt
      [] EnrichEnv.noClient [true] (by decide) (Or.inl rfl) (by decide)).1⟩

/-- C7: when the space-joined arguments are empty the run aborts at once
with exit code 1, before the collection prompt, with no enrichment call
and no email attempt. -/
theorem C7_empty_subject (conf : Config) (args : List String)
    (input : List InEv) (env : EnrichEnv) (res : List Bool)
    (h : String.intercalate " " args = "") :
    runMain conf args input env res =
      some ⟨Outcome.fatalExit, 1, false, false, [], 0,
        "todo: missing todo subject."⟩ :=
  runMain_fatal conf args input env res h

/-- Witness for C7 at an empty argument list. -/
theorem C7_empty_subject_witness :
    String.intercalate " " ([] : List String) = "" ∧
    runMain sampleConf [] [InEv.line "never read"]
      (EnrichEnv.streamOk ["s"]) [true] =
      some ⟨Outcome.fatalExit, 1, false, false, [], 0,
        "todo: missing todo subject."⟩ :=
  ⟨by decide,
    C7_empty_subject sampleConf [] [InEv.line "never read"]
      (EnrichEnv.streamOk ["s"]) [true] (by decide)⟩

/-- C8: with no completion credential (os.Getenv yields "" whether the
variable is unset or empty) no client is configured, enrichment is the
identity on the text, and the body of every delivery attempt equals the
composed text byte-for-byte. -/
theorem C8_no_client (conf : Config) (args : List String)
    (input : List InEv) (res : List Bool) (r : RunResult) (m : SendReq)
    (bl : List String)
    (hcol : collect [] input = some (bl, true))
    (hrun : runMain conf args input EnrichEnv.noClient res = some r)
    (hm : m ∈ r.emails) :
    clientConfigured "" = false ∧
    (∀ t, applyEnrich t EnrichEnv.noClient = t) ∧
    m.body = composeText ("todo: " ++ String.intercalate " " args) bl := by
  refine ⟨rfl, fun t => rfl, ?_⟩
  obtain ⟨bl', hcol', rfl⟩ :=
    mem_emails_spec conf args input EnrichEnv.noClient res r m hrun hm
  have hbl : bl' = bl := by
    have := hcol'.symm.trans hcol
    simpa using this
  rw [hbl]
  rfl

/-- Witness for C8: arguments ["garden"], body line "water plants", first
attempt succeeds. -/
theorem C8_no_client_witness :
    collect [] [InEv.line "water plants", InEv.line ""] =
      some (["water plants"], true) ∧
    runMain sampleConf ["garden"] [InEv.line "water plants", InEv.line ""]
      EnrichEnv.noClient [true] = some w8res ∧
    w8req.body =
      composeText ("todo: " ++ String.intercalate " " ["garden"])
        ["water plants"] :=
  ⟨by decide, by decide,
    (C8_no_client sampleConf ["garden"]
      [InEv.line "water plants", InEv.line ""] [true] w8res w8req
      ["water plants"] (by decide) (by decide) (by decide)).2.2⟩

/-- C9: every delivery attempt of a run carries the same sender, subject
and recipient: the subject is the item subject set at creation
("todo: " plus the joined arguments), the recipient is the configured
inbox, the sender is the configured address, and changing the enrichment
environment changes none of them (enrichment touches only the body). -/
theorem C9_frame (conf : Config) (args : List String) (input : List InEv)
    (env env' : EnrichEnv) (res : List Bool) (r : RunResult) (m : SendReq)
    (hrun : runMain conf args input env res = some r)
    (hm : m ∈ r.emails) :
    m.subject = "todo: " ++ String.intercalate " " args ∧
    m.recipient = conf.inbox ∧
    m.sender = conf.email ∧
    (runMain conf args input env res).map
        (fun x => x.emails.map (fun q => (q.sender, q.subject, q.recipient))) =
      (runMain conf args input env' res).map
        (fun x => x.emails.map (fun q => (q.sender, q.subject, q.recipient))) := by
  obtain ⟨bl, -, rfl⟩ := mem_emails_spec conf args input env res r m hrun hm
  exact ⟨rfl, rfl, rfl, runMain_meta_indep conf args input env env' res⟩

/-- Witness for C9: arguments ["ping"], blank body, one failure then
success, comparing a stream-success environment against no client. -/
theorem C9_frame_witness :
    runMain sampleConf ["ping"] [InEv.line ""] EnrichEnv.noClient
      [false, true] = some w9res ∧
    w9req ∈ w9res.emails ∧
    w9req.subject = "todo: " ++ String.intercalate " " ["ping"] ∧
    w9req.recipient = sampleConf.inbox :=
  ⟨by decide, by decide,
    (C9_frame sampleConf ["ping"] [InEv.line ""] EnrichEnv.noClient
      (EnrichEnv.streamOk ["s"]) [false, true] w9res w9req (by decide)
      (by decide)).1,
    (C9_frame sampleConf ["ping"] [InEv.line ""] EnrichEnv.noClient
      (EnrichEnv.streamOk ["s"]) [false, true] w9res w9req (by decide)
      (by decide)).2.1⟩

/-- C10 counterexample: the handoff channel has capacity one, so the
reader does not block on its next read while a line is pending: the state
cexChan — reader has completed its second read (readerPos = 2) while line
0 sits unconsumed in the buffer — is reachable, refuting the claim that
the reader blocks on its next read until the controller has consumed the
previous line. -/
theorem C10_read_ahead_counterexample :
    ChanReachable cexChan ∧ cexChan.buf = some 0 ∧
    cexChan.consumed = [] ∧ cexChan.readerPos = 2 :=
  ⟨ChanReachable.step
      (ChanReachable.step
        (ChanReachable.step ChanReachable.init (ChanStep.read 0 none []))
        (ChanStep.send 1 0 []))
      (ChanStep.read 1 (some 0) []),
    rfl, rfl, rfl⟩

/-- C10 (amended): lines are handed to the controller in the exact order
typed through a capacity-one channel, the channel holds at most one
pending line, and the reader blocks on sending (not reading) the next
line until the buffer is free — so in every reachable state the consumed
lines followed by the buffered line and the line held by the reader are
exactly lines 0..readerPos-1 in order, and the reader can be at most one
buffered line plus one held line ahead of the controller. -/
theorem C10_order_invariant (s : ChanState) (h : ChanReachable s) :
    s.consumed ++ s.buf.toList ++ s.holding.toList =
      List.range s.readerPos ∧
    s.buf.toList.length ≤ 1 := by
  induction h with
  | init => exact ⟨rfl, by decide⟩
  | step hr hs ih =>
    cases hs with
    | read p b c =>
      obtain ⟨ih1, ih2⟩ := ih
      refine ⟨?_, ?_⟩
      · simp only [Option.toList_none, List.append_nil] at ih1
        simp [List.range_succ, ← ih1, List.append_assoc]
      · simpa using ih2
    | send p k c =>
      obtain ⟨ih1, -⟩ := ih
      refine ⟨?_, by simp⟩
      simp only [Option.toList_none, Option.toList_some, List.append_nil] at ih1 ⊢
      simpa using ih1
    | recv p hl k c =>
      obtain ⟨ih1, -⟩ := ih
      refine ⟨?_, by simp⟩
      simp only [Option.toList_none, Option.toList_some, List.append_nil] at ih1 ⊢
      simpa [List.append_assoc] using ih1

/-- Witness for C10 at the reachable state with one line read and held. -/
theorem C10_order_invariant_witness :
    ChanReachable w10state ∧
    (w10state.consumed ++ w10state.buf.toList ++ w10state.holding.toList =
        List.range w10state.readerPos ∧
      w10state.buf.toList.length ≤ 1) := by
  have hreach : ChanReachable w10state :=
    ChanReachable.step ChanReachable.init (ChanStep.read 0 none [])
  exact ⟨hreach, C10_order_invariant w10state hreach⟩

end Todo
